import Mathlib

/-
  Verification development for the fetchez survey index (FRED) and hook
  pipeline.  The definitions below are a shallow embedding of the Python
  source in `src/fetchez/`: property maps become association lists over a
  small Python-value type, the GeoJSON backing file becomes an explicit
  file-state datatype, and code that can raise returns `Except PyErr`.
  Components whose source is absent from the repository snapshot
  (`fetchez.core`, `fetchez.spatial`, `fetchez.utils`, and the omitted body
  of `FRED.ingest`) are modelled from the specification; each such
  definition says so in its doc comment.
-/

set_option linter.unusedVariables false

/-- Scalar values as they appear in Python dictionaries: strings, numbers
(modelled as rationals) and booleans. -/
inductive PValue where
  | str : String → PValue
  | num : ℚ → PValue
  | bool : Bool → PValue
deriving DecidableEq

/-- A Python `dict` with string keys, modelled as an association list kept in
insertion order (Python dicts preserve insertion order). -/
abbrev Dict (α : Type) := List (String × α)

/-- `d.get(k)`: the value bound to `k`, if any. -/
def dget {α : Type} (d : Dict α) (k : String) : Option α :=
  (d.find? (fun p => p.1 == k)).map (fun p => p.2)

/-- `k in d`. -/
def dhas {α : Type} (d : Dict α) (k : String) : Bool :=
  (dget d k).isSome

/-- `d[k] = v`: replaces the binding in place when the key exists (keeping its
position, as Python dicts do), otherwise appends it. -/
def dset {α : Type} : Dict α → String → α → Dict α
  | [], k, v => [(k, v)]
  | p :: rest, k, v =>
    if p.1 == k then (k, v) :: rest else p :: dset rest k v

/-- Python `str(value)`.  Numeric rendering is abstracted by `toString` on
rationals; no claim in this development depends on the digits Python prints. -/
def pyStr : PValue → String
  | PValue.str s => s
  | PValue.num q => toString q
  | PValue.bool b => if b then "True" else "False"

/-- Python `str(d.get(k))`: a missing key renders as `"None"`. -/
def pyStrOpt : Option PValue → String
  | some v => pyStr v
  | Option.none => "None"

/-- The apostrophe character, written by code point. -/
def singleQuote : Char := Char.ofNat 39

/-- The double-quote character, written by code point. -/
def doubleQuote : Char := Char.ofNat 34

/-- Python `s.strip(chars)` for a character predicate: removes matching
characters from both ends. -/
def pyStripChars (p : Char → Bool) (s : String) : String :=
  ⟨((s.data.dropWhile p).reverse.dropWhile p).reverse⟩

/-- The clause trimming in `FRED.search`:
`x.strip().strip("'").strip('"')` — whitespace first, then apostrophes, then
double quotes. -/
def pyClauseTrim (s : String) : String :=
  pyStripChars (fun c => c == doubleQuote)
    (pyStripChars (fun c => c == singleQuote)
      (pyStripChars Char.isWhitespace s))

/-- GeoJSON geometry as the index produces and stores it.  `fred.py` only ever
builds `Polygon` geometries; a polygon is a list of rings of coordinate
pairs. -/
inductive Geometry where
  | polygon : List (List (ℚ × ℚ)) → Geometry
deriving DecidableEq

/-- One feature of the index: the `properties` dict plus the `geometry` value
(`Option.none` models Python `None` / a missing or empty geometry, which is
falsy in `if search_geom and geom`).  The constant `'type': 'Feature'` field
is left implicit. -/
structure Feature where
  properties : Dict PValue
  geometry : Option Geometry
deriving DecidableEq

/-- The in-memory state of a `FRED` index: its name and the ordered feature
list. -/
structure FRED where
  name : String
  features : List Feature
deriving DecidableEq

/-- The serialized `FeatureCollection` document: `{type, name, features}`.
`featuresKey = Option.none` models a JSON object with no `features` key, so
that `data.get('features', [])` falls back to the empty list. -/
structure FCDoc where
  docName : String
  featuresKey : Option (List Feature)
deriving DecidableEq

/-- The observable states of the backing file, abstracting the outcome of
`open` + `json.load`:
absent on disk; unreadable (`IOError` on open/read); bytes that are not
valid UTF-8 (open succeeds, decoding inside `json.load`'s `f.read()` raises
`UnicodeDecodeError` — a `ValueError` subclass caught by neither handler);
decodable text that is not valid JSON (`json.JSONDecodeError`); valid JSON
whose top-level value is not an object (so `data.get` raises
`AttributeError`); or a parsed object document. -/
inductive FileState where
  | absent : FileState
  | unreadable : FileState
  | undecodable : FileState
  | malformed : FileState
  | nonObject : FileState
  | doc : FCDoc → FileState
deriving DecidableEq

/-- Python exceptions that escape the embedded code. -/
inductive PyErr where
  | attributeError : PyErr
  | valueError : PyErr
  | unicodeDecodeError : PyErr
deriving DecidableEq

/-- `FRED.__init__` + `FRED._load` over the resolved backing file: a missing
file or a caught load failure (`json.JSONDecodeError`, `IOError`) yields an
empty index; a parsed document yields `data.get('features', [])`.  Two load
failures escape the `except (json.JSONDecodeError, IOError)` clause: a file
whose bytes are not valid UTF-8 raises `UnicodeDecodeError` (a `ValueError`,
not a `JSONDecodeError` or `IOError`), and a JSON value that is not an
object raises `AttributeError` on `data.get`. -/
def FRED.load (nm : String) (file : FileState) : Except PyErr FRED :=
  match file with
  | FileState.absent => Except.ok ⟨nm, []⟩
  | FileState.unreadable => Except.ok ⟨nm, []⟩
  | FileState.undecodable => Except.error PyErr.unicodeDecodeError
  | FileState.malformed => Except.ok ⟨nm, []⟩
  | FileState.nonObject => Except.error PyErr.attributeError
  | FileState.doc d => Except.ok ⟨nm, d.featuresKey.getD []⟩

/-- The document `FRED.save` serializes: `{type: FeatureCollection, name,
features}` with the current feature list. -/
def FRED.saveDoc (st : FRED) : FileState :=
  FileState.doc ⟨st.name, some st.features⟩

/-- `FRED.save`: writes the document when the path is writable; an `IOError`
is logged and leaves the previous file contents (and the in-memory state)
unchanged. -/
def FRED.save (st : FRED) (writable : Bool) (file : FileState) : FileState :=
  if writable then st.saveDoc else file

/-- `FRED.add_survey`: copies the keyword arguments, stamps
`props['LastUpdate']` with today's date (overwriting any caller-supplied
value) and appends the feature.  `today` stands for `utils.this_date()`
(`fetchez.utils` is absent from the snapshot). -/
def FRED.add_survey (st : FRED) (geom : Option Geometry) (kwargs : Dict PValue)
    (today : String) : FRED :=
  { st with
    features := st.features ++ [⟨dset kwargs "LastUpdate" (PValue.str today), geom⟩] }

/-- A query region `(xmin, xmax, ymin, ymax)`. -/
abbrev Region := ℚ × ℚ × ℚ × ℚ

/-- Modelled from the spec: `spatial.region_valid_p` (`fetchez.spatial` is
absent from the snapshot).  The spec notes that region validity checking
"does not verify west<east / south<north", so every well-typed 4-tuple region
is accepted. -/
def region_valid_p (r : Region) : Bool := true

/-- Python `clause.split('=')`. -/
def pySplitEq (s : String) : List String :=
  (s.data.splitOn (Char.ofNat 61)).map (fun l => (⟨l⟩ : String))

/-- One `where` clause evaluated against a property map.
`Option.none` means the clause holds no `=` and is ignored; a clause that
splits into three or more parts makes the tuple unpacking
`k, v = [...]` raise `ValueError`. -/
def clauseEval (props : Dict PValue) (clause : String) :
    Except PyErr (Option Bool) :=
  match (pySplitEq clause).map pyClauseTrim with
  | [] => Except.ok Option.none
  | [_] => Except.ok Option.none
  | [k, v] => Except.ok (some (pyStrOpt (dget props k) == v))
  | _ => Except.error PyErr.valueError

/-- The attribute-filter loop of `FRED.search`: clauses are evaluated in
order; the first mismatch `break`s (so later clauses are not evaluated), an
ignored clause continues, and a malformed clause raises. -/
def whereMatch (props : Dict PValue) : List String → Except PyErr Bool
  | [] => Except.ok true
  | c :: rest =>
    match clauseEval props c with
    | Except.error e => Except.error e
    | Except.ok Option.none => whereMatch props rest
    | Except.ok (some true) => whereMatch props rest
    | Except.ok (some false) => Except.ok false

/-- The layer filter: active only when `layer` is truthy (not `None`, not the
empty string). -/
def layerActive : Option String → Bool
  | Option.none => false
  | some l => !(l == "")

/-- Whether a feature is dropped by the layer filter:
`layer and props.get('DataSource') != layer`.  A non-string or missing
`DataSource` never equals the layer string. -/
def layerMismatch (layer : Option String) (props : Dict PValue) : Bool :=
  layerActive layer &&
    !(match layer, dget props "DataSource" with
      | some l, some (PValue.str s) => s == l
      | _, _ => false)

/-- The feature loop of `FRED.search`.  `spatialOn` is `some keep` when a
spatial filter is in force; features with a falsy geometry skip the spatial
filter (`if search_geom and geom`), and `keep g` is false both when
`shape(geom)` raises and when the shapes do not intersect (either way the
feature is dropped by `continue`). -/
def searchList (whereC : List String) (layer : Option String)
    (spatialOn : Option (Geometry → Bool)) :
    List Feature → Except PyErr (List (Dict PValue))
  | [] => Except.ok []
  | f :: rest =>
    if layerMismatch layer f.properties then
      searchList whereC layer spatialOn rest
    else
      match whereMatch f.properties whereC with
      | Except.error e => Except.error e
      | Except.ok false => searchList whereC layer spatialOn rest
      | Except.ok true =>
        match spatialOn, f.geometry with
        | some keep, some g =>
          if keep g then
            (searchList whereC layer spatialOn rest).map (f.properties :: ·)
          else
            searchList whereC layer spatialOn rest
        | _, _ =>
          (searchList whereC layer spatialOn rest).map (f.properties :: ·)

/-- The `search_geom` preparation of `FRED.search`: the spatial filter is
armed only when a region is supplied, passes `region_valid_p`, and shapely is
available; an armed filter keeps a geometry iff `shape(geom)` succeeds and
the shapes intersect. -/
def spatialFilterOf (region : Option Region) (hasShapely : Bool)
    (shapeValid : Geometry → Bool) (intersects : Geometry → Region → Bool) :
    Option (Geometry → Bool) :=
  match region with
  | some r =>
    if region_valid_p r && hasShapely then
      some (fun g => shapeValid g && intersects g r)
    else Option.none
  | Option.none => Option.none

/-- `FRED.search`.  The geometry engine is abstracted by two parameters:
`shapeValid g` models `shape(geom)` succeeding, and `intersects g r` models
`region_to_shapely(r).intersects(shape(g))`; `hasShapely` is the module-level
`HAS_SHAPELY` flag. -/
def FRED.search (st : FRED) (region : Option Region) (whereC : List String)
    (layer : Option String) (hasShapely : Bool)
    (shapeValid : Geometry → Bool) (intersects : Geometry → Region → Bool) :
    Except PyErr (List (Dict PValue)) :=
  searchList whereC layer
    (spatialFilterOf region hasShapely shapeValid intersects) st.features

/-- Does the character list `l` start with `sub`? -/
def startsL : List Char → List Char → Bool
  | [], _ => true
  | _ :: _, [] => false
  | c :: cs, d :: ds => c == d && startsL cs ds

/-- Does the character list contain `sub` as a contiguous run? -/
def hasSub (sub : List Char) : List Char → Bool
  | [] => sub.isEmpty
  | d :: ds => startsL sub (d :: ds) || hasSub sub ds

/-- Python `sub in s` on strings. -/
def strHas (s sub : String) : Bool := hasSub sub.data s.data

/-- `s.startswith(pre)`. -/
def strStarts (s pre : String) : Bool := startsL pre.data s.data

/-- `s.endswith(suf)`. -/
def strEnds (s suf : String) : Bool := startsL suf.data.reverse s.data.reverse

instance {ε α : Type} [DecidableEq ε] [DecidableEq α] :
    DecidableEq (Except ε α) := fun x y =>
  match x, y with
  | Except.ok a, Except.ok b =>
    if h : a = b then isTrue (by rw [h]) else isFalse (by simp [h])
  | Except.error a, Except.error b =>
    if h : a = b then isTrue (by rw [h]) else isFalse (by simp [h])
  | Except.ok _, Except.error _ => isFalse (by simp)
  | Except.error _, Except.ok _ => isFalse (by simp)

/-- `s.lower()`. -/
def strLower (s : String) : String := ⟨s.data.map Char.toLower⟩

/-- The numeric value of a run of decimal digits. -/
def digitsVal (ds : List Char) : ℕ :=
  ds.foldl (fun a c => a * 10 + (c.toNat - 48)) 0

/-- Python `float(s)` on simple decimal literals `[+-]digits[.digits]`;
`Option.none` when the string does not parse. -/
def parseDec (s : String) : Option ℚ :=
  let cs := s.data
  let sgn : ℚ := match cs with
    | c :: _ => if c == Char.ofNat 45 then -1 else 1
    | [] => 1
  let body : List Char := match cs with
    | c :: rest =>
      if c == Char.ofNat 45 || c == Char.ofNat 43 then rest else cs
    | [] => []
  match body.splitOn (Char.ofNat 46) with
  | [ip] =>
    if !ip.isEmpty && ip.all Char.isDigit then some (sgn * digitsVal ip)
    else Option.none
  | [ip, fp] =>
    if (!ip.isEmpty || !fp.isEmpty) && ip.all Char.isDigit && fp.all Char.isDigit
    then some (sgn * (digitsVal ip + (digitsVal fp : ℚ) / ((10 : ℚ) ^ fp.length)))
    else Option.none
  | _ => Option.none

/-- Python `float(value)`: numbers pass through, booleans coerce to 0/1 and
strings are parsed as decimal literals. -/
def pyFloat : PValue → Option ℚ
  | PValue.num q => some q
  | PValue.bool b => some (if b then 1 else 0)
  | PValue.str s => parseDec s

/-- The fixed metadata schema of the index (`FRED.SCHEMA`). -/
def SCHEMA : List String :=
  ["Name", "ID", "Date", "Agency", "MetadataLink", "MetadataDate",
   "DataLink", "IndexLink", "Link", "DataType", "DataSource",
   "Resolution", "HorizontalDatum", "VerticalDatum", "LastUpdate",
   "Etcetra", "Info"]

/-- Bounding-coordinate alias names for the west side; the other sides are
analogous. -/
def keysW : List String := ["w", "west", "xmin", "min_lon", "min_x", "left"]

/-- East-side aliases. -/
def keysE : List String := ["e", "east", "xmax", "max_lon", "max_x", "right"]

/-- South-side aliases. -/
def keysS : List String := ["s", "south", "ymin", "min_lat", "min_y", "bottom"]

/-- North-side aliases. -/
def keysN : List String := ["n", "north", "ymax", "max_lat", "max_y", "top"]

/-- Case-insensitive record lookup: an exact key match first, then any key
whose lowercase form matches. -/
def ciGet (row : Dict PValue) (k : String) : Option PValue :=
  match dget row k with
  | some v => some v
  | Option.none => (row.find? (fun p => strLower p.1 == k)).map (fun p => p.2)

/-- Modelled from the spec: the bound detection of `FRED.ingest` (the body of
`ingest` is omitted in `src/fetchez/fred.py`).  For each alias in order, a
case-insensitively matching record key whose value converts to a number
yields that bound. -/
def getVal (row : Dict PValue) : List String → Option ℚ
  | [] => Option.none
  | k :: rest =>
    match ciGet row k with
    | some v =>
      match pyFloat v with
      | some q => some q
      | Option.none => getVal row rest
    | Option.none => getVal row rest

/-- Modelled from the spec: the whitelisted schema-field copy of
`FRED.ingest` — each schema field is copied from the record by exact name,
else by its lowercase name. -/
def copySchemaFields (row : Dict PValue) : Dict PValue :=
  SCHEMA.foldl
    (fun props field =>
      match dget row field with
      | some v => dset props field v
      | Option.none =>
        match dget row (strLower field) with
        | some v => dset props field v
        | Option.none => props)
    []

/-- Modelled from the spec: caller-supplied field renames — each
`(source, destination)` pair copies the record's `source` value into the
`destination` property. -/
def applyFieldMap (row : Dict PValue) (fieldMap : List (String × String))
    (props : Dict PValue) : Dict PValue :=
  fieldMap.foldl
    (fun ps sd =>
      match dget row sd.1 with
      | some v => dset ps sd.2 v
      | Option.none => ps)
    props

/-- Modelled from the spec: the `DataLink` heuristic of `FRED.ingest` — when
no `DataLink` was copied, the first record key containing `url`, `link` or
`path` (case-insensitively) supplies it. -/
def resolveDataLink (row : Dict PValue) (props : Dict PValue) : Dict PValue :=
  if dhas props "DataLink" then props
  else
    match row.find? (fun p =>
        strHas (strLower p.1) "url" || strHas (strLower p.1) "link" ||
          strHas (strLower p.1) "path") with
    | some p => dset props "DataLink" p.2
    | Option.none => props

/-- Modelled from the spec: rewriting a non-network link into a canonical
local-file reference (`file://` + the path; `os.path.abspath` is abstracted
away, which no claim exercises). -/
def canonicalizeLink (props : Dict PValue) : Dict PValue :=
  match dget props "DataLink" with
  | some (PValue.str s) =>
    if !(s == "") && !(strStarts s "http") && !(strStarts s "ftp") then
      dset props "DataLink" (PValue.str ("file://" ++ s))
    else props
  | _ => props

/-- The rectangular ring `SW → SE → NE → NW → SW` built from the four
bounds. -/
def rectRing (w e s n : ℚ) : List (ℚ × ℚ) :=
  [(w, s), (e, s), (e, n), (w, n), (w, s)]

/-- Modelled from the spec: processing of one ingest record.  The record is
skipped (`Option.none`) when no `DataLink` resolves or any of the four bounds
is missing; otherwise it becomes a feature with the rectangular polygon and
the `LastUpdate` stamp that `add_survey` applies. -/
def ingestRecord (fieldMap : List (String × String)) (today : String)
    (row : Dict PValue) : Option Feature :=
  let props := resolveDataLink row (applyFieldMap row fieldMap (copySchemaFields row))
  if !(dhas props "DataLink") then Option.none
  else
    let props := canonicalizeLink props
    match getVal row keysW, getVal row keysE, getVal row keysS, getVal row keysN with
    | some w, some e, some s, some n =>
      some ⟨dset props "LastUpdate" (PValue.str today),
            some (Geometry.polygon [rectRing w e s n])⟩
    | _, _, _, _ => Option.none

/-- Outcome of one `ingest` call: the final state, the file contents written
(when a save happened), and the number of `save()` calls performed, plus the
added/skipped record counts. -/
structure IngestOut where
  state : FRED
  written : Option FileState
  saves : ℕ
  added : ℕ
  skipped : ℕ
deriving DecidableEq

/-- Modelled from the spec: `FRED.ingest` — the method body is omitted in
`src/fetchez/fred.py` (stubbed with `pass`).  `source` is the parsed record
list (`Option.none` models a missing/unreadable/unsupported source file,
which short-circuits with a no-op).  With a readable source: the index is
optionally wiped, every record is processed (skips never abort the batch),
and the index is persisted exactly once at the end. -/
def FRED.ingest (st : FRED) (source : Option (List (Dict PValue)))
    (fieldMap : List (String × String)) (wipe : Bool) (today : String) :
    IngestOut :=
  match source with
  | Option.none => ⟨st, Option.none, 0, 0, 0⟩
  | some rows =>
    let st1 : FRED := if wipe then { st with features := [] } else st
    let newFeats := rows.filterMap (ingestRecord fieldMap today)
    let st2 : FRED := { st1 with features := st1.features ++ newFeats }
    ⟨st2, some st2.saveDoc, 1, newFeats.length, rows.length - newFeats.length⟩

/-- An artifact record under one producer key: a single path or an ordered
list of paths. -/
inductive PathSpec where
  | one : String → PathSpec
  | many : List String → PathSpec
deriving DecidableEq

/-- Values stored in a pipeline result entry: strings, integers (`status`),
and the `artifacts` map from hook name to path(s). -/
inductive EVal where
  | s : String → EVal
  | i : Int → EVal
  | amap : Dict PathSpec → EVal
deriving DecidableEq

/-- A result entry: the mutable property dict of one pipeline item. -/
abbrev Entry := Dict EVal

/-- A `(module, entry)` pair as handed to the hooks; the producing connector
is abstracted to an identifier. -/
abbrev PipeItem := ℕ × Entry

/-- `entry.get("artifacts", {})`, read as a map (any non-map value behaves as
an empty map; no builtin hook stores one). -/
def entryArts (e : Entry) : Dict PathSpec :=
  match dget e "artifacts" with
  | some (EVal.amap a) => a
  | _ => []

/-- Normalizing a single-path artifact to a path list, as
`if isinstance(artifact_paths, str): artifact_paths = [artifact_paths]`. -/
def pathsOf : PathSpec → List String
  | PathSpec.one p => [p]
  | PathSpec.many ps => ps

/-- The synthetic entry `FocusSink` fabricates for one artifact path, with
the original artifacts map preserved. -/
def focusEntry (target : String) (arts : Dict PathSpec) (p : String) : Entry :=
  [("url", EVal.s ("file://" ++ p)),
   ("dst_fn", EVal.s p),
   ("status", EVal.i 0),
   ("data_type", EVal.s (target ++ "_artifact")),
   ("artifacts", EVal.amap arts)]

/-- The inner path loop of `FocusSink.run`: paths already in `seen_paths` are
skipped, new ones are recorded and produce a synthetic entry. -/
def focusPaths (target : String) (m : ℕ) (arts : Dict PathSpec) :
    List String → List String → List PipeItem × List String
  | [], seen => ([], seen)
  | p :: ps, seen =>
    if seen.contains p then focusPaths target m arts ps seen
    else
      let out := focusPaths target m arts ps (p :: seen)
      ((m, focusEntry target arts p) :: out.1, out.2)

/-- The entry loop of `FocusSink.run`, threading the `seen_paths` set. -/
def focusGo (target : String) : List PipeItem → List String → List PipeItem
  | [], _ => []
  | me :: rest, seen =>
    let arts := entryArts me.2
    match dget arts target with
    | some spec =>
      let out := focusPaths target me.1 arts (pathsOf spec) seen
      out.1 ++ focusGo target rest out.2
    | Option.none => focusGo target rest seen

/-- `FocusSink.run`: with a falsy target the entries pass through unchanged;
otherwise the entries are discarded and replaced by synthetic artifact
entries, de-duplicated by path across the whole list. -/
def FocusSink.run (target : Option String) (entries : List PipeItem) :
    List PipeItem :=
  match target with
  | Option.none => entries
  | some t => if t == "" then entries else focusGo t entries []

/-- `os.path.dirname` for POSIX paths: everything before the last slash, with
trailing slashes stripped unless the head is all slashes. -/
def dirname (p : String) : String :=
  let slash : Char := Char.ofNat 47
  let head := ((p.data.reverse.dropWhile (fun c => !(c == slash)))).reverse
  if head.all (fun c => c == slash) then ⟨head⟩
  else ⟨(head.reverse.dropWhile (fun c => c == slash)).reverse⟩

/-- `os.path.join(a, b)` for POSIX paths. -/
def pjoin (a b : String) : String :=
  if strStarts b "/" then b
  else if a == "" then b
  else if strEnds a "/" then a ++ b
  else a ++ "/" ++ b

/-- The archive-reading environment of the unzip hook: `zipNames p` is
`ZipFile(p).namelist()` (or a raised exception), `tarMembers p` is
`tarfile.open(p).getmembers()` as `(name, isfile)` pairs, and `gzOk p` is
whether single-file gunzip succeeds. -/
structure ArchiveEnv where
  zipNames : String → Except Unit (List String)
  tarMembers : String → Except Unit (List (String × Bool))
  gzOk : String → Bool

/-- The filesystem, abstracted to the set of existing file paths. -/
abbrev FS := List String

/-- Adds a path to the filesystem if absent. -/
def fsAdd (fs : FS) (p : String) : FS :=
  if fs.contains p then fs else fs ++ [p]

/-- `os.remove`, with the `OSError` on a missing file swallowed. -/
def fsRemove (fs : FS) (p : String) : FS :=
  fs.filter (fun q => !(q == p))

/-- Extraction entries for the members of an archive when extraction actually
ran: `{**entry, dst_fn, status: 0, src_fn: archive}`. -/
def extractedEntries (m : ℕ) (e : Entry) (dir archive : String)
    (files : List String) : List PipeItem :=
  files.map (fun f =>
    (m, dset (dset (dset e "dst_fn" (EVal.s (pjoin dir f))) "status" (EVal.i 0))
      "src_fn" (EVal.s archive)))

/-- Skip-path entries for the members of an archive that was *not*
re-extracted: `{**entry, dst_fn, status: 0}` — no `src_fn` is added. -/
def skipEntries (m : ℕ) (e : Entry) (dir : String) (files : List String) :
    List PipeItem :=
  files.map (fun f =>
    (m, dset (dset e "dst_fn" (EVal.s (pjoin dir f))) "status" (EVal.i 0)))

/-- Processing of one entry whose `dst_fn` names a zip/tar archive, shared by
the `.zip` and `.tar`/`.tar.gz`/`.tgz` branches of `Unzip.run`.  `names` is
the branch's `files_to_extract` computation: the zip branch drops
directory entries (names ending in a slash), the tar branch keeps only
file members; an `Except.error` models the archive raising. -/
def unzipArchive (removeOrig overwrite : Bool) (fs : FS) (m : ℕ) (e : Entry)
    (p : String) (names : Except Unit (List String)) :
    List PipeItem × FS :=
  match names with
  | Except.error _ => ([(m, e)], fs)
  | Except.ok files =>
    let dir := dirname p
    if !overwrite && files.all (fun f => fs.contains (pjoin dir f)) then
      (skipEntries m e dir files, fs)
    else
      let fs1 := files.foldl (fun a f => fsAdd a (pjoin dir f)) fs
      let fs2 := if removeOrig then fsRemove fs1 p else fs1
      (extractedEntries m e dir p files, fs2)

/-- `Unzip.run` on a single `(module, entry)` pair, returning the produced
entries and the updated filesystem. -/
def unzipEntry (removeOrig overwrite : Bool) (env : ArchiveEnv) (fs : FS)
    (me : PipeItem) : List PipeItem × FS :=
  let m := me.1
  let e := me.2
  match dget e "dst_fn", dget e "status" with
  | some (EVal.s p), some (EVal.i 0) =>
    if p == "" then ([(m, e)], fs)
    else
      let low := strLower p
      if strEnds low ".zip" then
        unzipArchive removeOrig overwrite fs m e p
          ((env.zipNames p).map (fun ns => ns.filter (fun n => !(strEnds n "/"))))
      else if strEnds low ".tar" || strEnds low ".tar.gz" || strEnds low ".tgz" then
        unzipArchive removeOrig overwrite fs m e p
          ((env.tarMembers p).map (fun ms => (ms.filter (fun nb => nb.2)).map (fun nb => nb.1)))
      else if strEnds low ".gz" then
        let ex : String := ⟨p.data.take (p.data.length - 3)⟩
        if !overwrite && fs.contains ex then
          ([(m, dset (dset e "dst_fn" (EVal.s ex)) "status" (EVal.i 0))], fs)
        else if env.gzOk p then
          let fs1 := fsAdd fs ex
          let fs2 := if removeOrig then fsRemove fs1 p else fs1
          ([(m, dset (dset (dset e "dst_fn" (EVal.s ex)) "status" (EVal.i 0))
              "src_fn" (EVal.s p))], fs2)
        else ([(m, e)], fs)
      else ([(m, e)], fs)
  | _, _ => ([(m, e)], fs)

/-- `Unzip.run`: each entry of the batch is processed in order, threading the
filesystem (an extraction can satisfy a later entry's existence check). -/
def Unzip.run (removeOrig overwrite : Bool) (env : ArchiveEnv) :
    List PipeItem → FS → List PipeItem × FS
  | [], fs => ([], fs)
  | me :: rest, fs =>
    let out := unzipEntry removeOrig overwrite env fs me
    let tail := Unzip.run removeOrig overwrite env rest out.2
    (out.1 ++ tail.1, tail.2)

/-- A Python class as the hook registry sees it: whether it carries a `name`
attribute (and its value), whether it is a class, whether it subclasses
`FetchHook`, whether it is the abstract `FetchHook` itself, and an identity
tag. -/
structure PyClass where
  hasName : Bool
  clsName : String
  isCls : Bool
  subOfFetchHook : Bool
  isFetchHookBase : Bool
  ident : ℕ
deriving DecidableEq

/-- The registry's structural contract check:
`inspect.isclass(obj) and issubclass(obj, FetchHook) and obj is not FetchHook`. -/
def hookContractOk (c : PyClass) : Bool :=
  c.isCls && c.subOfFetchHook && !c.isFetchHookBase

/-- The registry's `name → type` map. -/
abbrev Registry := Dict PyClass

/-- `HookRegistry.register_hook`: a class without a `name` attribute is
rejected (logged); a class satisfying the contract is stored under its name,
overwriting any previous binding. -/
def register_hook (reg : Registry) (c : PyClass) : Registry :=
  if !c.hasName then reg
  else if hookContractOk c then dset reg c.clsName c
  else reg

/-- `HookRegistry._register_from_module`: every member satisfying the
contract is registered under `getattr(obj, 'name', memberName.lower())`,
later registrations overwriting earlier ones.  `members` is the module's
member list in `inspect.getmembers` order (sorted by attribute name). -/
def register_from_module (reg : Registry) (members : List (String × PyClass)) :
    Registry :=
  members.foldl
    (fun r nc =>
      if hookContractOk nc.2 then
        dset r (if nc.2.hasName then nc.2.clsName else strLower nc.1) nc.2
      else r)
    reg

/-- `HookRegistry.get_hook`. -/
def get_hook (reg : Registry) (n : String) : Option PyClass := dget reg n

/-- The pre-stage queue: the full pre-transfer list of `(module, entry)`
pairs. -/
abbrev Queue := List PipeItem

/-- `DryRun.run` (`hooks/builtins/pipeline/dryrun.py`): returns the empty
list for every input, clearing the download queue. -/
def DryRun.run (entries : Queue) : Queue := []

/-- Modelled from the spec: the pre-stage loop of the pipeline engine
(`fetchez.core` is absent from the snapshot).  Pre-stage hooks run
single-threaded in caller order; a hook returning an empty sequence cancels
the entire run (spec §4.2 and §5), so the loop stops on an empty queue. -/
def runPreStage : List (Queue → Queue) → Queue → Queue
  | [], q => q
  | h :: rest, q =>
    let q1 := h q
    if q1.isEmpty then [] else runPreStage rest q1

/-- Observable counts of one pipeline run. -/
structure RunStats where
  transfers : ℕ
  fileHookInvocations : ℕ
  postHookInvocations : ℕ
  poolStarted : Bool
deriving DecidableEq

/-- A clause is well formed when it contains at most one `=`, so the tuple
unpacking in `FRED.search` cannot fail on it. -/
def clauseWF (c : String) : Bool := (pySplitEq c).length ≤ 2

/-- Declarative reading of one attribute clause: a `key=value` clause holds
when the rendered property equals the value after trimming; any other shape
places no constraint. -/
def clauseOk (props : Dict PValue) (c : String) : Bool :=
  match (pySplitEq c).map pyClauseTrim with
  | [k, v] => pyStrOpt (dget props k) == v
  | _ => true

/-- How the armed spatial filter treats a feature's geometry in the code: a
feature with a falsy geometry bypasses the filter and is kept. -/
def geomKeep (spatialOn : Option (Geometry → Bool)) (g : Option Geometry) :
    Bool :=
  match spatialOn, g with
  | some keep, some gg => keep gg
  | _, _ => true

/-- The full per-feature filter that `FRED.search` implements. -/
def featKeep (whereC : List String) (layer : Option String)
    (spatialOn : Option (Geometry → Bool)) (f : Feature) : Bool :=
  !(layerMismatch layer f.properties) &&
    whereC.all (clauseOk f.properties) &&
    geomKeep spatialOn f.geometry

/-- The search result as the claim words it: when the spatial filter is
armed, only features *whose geometry intersects the query region* are kept —
in particular a feature with no geometry is excluded, since it intersects
nothing. -/
def searchClaimC1 (st : FRED) (region : Option Region) (whereC : List String)
    (layer : Option String) (hasShapely : Bool)
    (shapeValid : Geometry → Bool) (intersects : Geometry → Region → Bool) :
    List (Dict PValue) :=
  let spatialOn := spatialFilterOf region hasShapely shapeValid intersects
  (st.features.filter (fun f =>
    !(layerMismatch layer f.properties) &&
      whereC.all (clauseOk f.properties) &&
      (match spatialOn, f.geometry with
       | some keep, some g => keep g
       | some _, Option.none => false
       | Option.none, _ => true))).map (fun f => f.properties)

/-- Normalization of an absolute POSIX path, as `os.path.abspath` performs on
an already-absolute input: `.` and empty segments are dropped and `..` pops
one segment.  This follows the spec's phrase "de-duplicated by absolute
path" and exists only to compare that wording with the code. -/
def absNorm (p : String) : String :=
  let segs := p.data.splitOn (Char.ofNat 47)
  let stack := segs.foldl
    (fun st seg =>
      if seg.isEmpty || seg == [Char.ofNat 46] then st
      else if seg == [Char.ofNat 46, Char.ofNat 46] then st.dropLast
      else st ++ [seg])
    ([] : List (List Char))
  "/" ++ String.intercalate "/" (stack.map (fun s => (⟨s⟩ : String)))

/-- The focus hook as the claim words it: identical fabrication, but
de-duplicated by *absolute* path rather than by the literal path string. -/
def focusPathsAbs (target : String) (m : ℕ) (arts : Dict PathSpec) :
    List String → List String → List PipeItem × List String
  | [], seen => ([], seen)
  | p :: ps, seen =>
    if seen.contains (absNorm p) then focusPathsAbs target m arts ps seen
    else
      let out := focusPathsAbs target m arts ps (absNorm p :: seen)
      ((m, focusEntry target arts p) :: out.1, out.2)

/-- Entry loop of the claim-side focus hook. -/
def focusGoAbs (target : String) : List PipeItem → List String → List PipeItem
  | [], _ => []
  | me :: rest, seen =>
    let arts := entryArts me.2
    match dget arts target with
    | some spec =>
      let out := focusPathsAbs target me.1 arts (pathsOf spec) seen
      out.1 ++ focusGoAbs target rest out.2
    | Option.none => focusGoAbs target rest seen

/-- The claim-side focus run (de-duplication by absolute path). -/
def focusClaimRun (target : String) (entries : List PipeItem) : List PipeItem :=
  focusGoAbs target entries []

/-- The artifact candidates a focus run draws from: for every entry whose
artifacts map binds the target, one `(module, artifacts, path)` triple per
recorded path, in entry order. -/
def focusCandidates (target : String) (entries : List PipeItem) :
    List (ℕ × Dict PathSpec × String) :=
  entries.flatMap (fun me =>
    let arts := entryArts me.2
    match dget arts target with
    | some spec => (pathsOf spec).map (fun p => (me.1, arts, p))
    | Option.none => [])

/-- De-duplication of candidates by exact path string, keeping first
occurrences, threading the set of paths already seen. -/
def dedupCands : List (ℕ × Dict PathSpec × String) → List String →
    List (ℕ × Dict PathSpec × String)
  | [], _ => []
  | c :: rest, seen =>
    if seen.contains c.2.2 then dedupCands rest seen
    else c :: dedupCands rest (c.2.2 :: seen)

/-- Modelled from the spec: the pipeline engine's run lifecycle
(`fetchez.core` is absent from the snapshot).  Stage order is pre, then the
parallel transfer pool with file-stage hooks per completed transfer, then the
post stage; an empty queue after the pre stage prevents the worker pool from
ever starting, so no transfer, file-stage or post-stage invocation happens. -/
def runPipeline (preHooks : List (Queue → Queue))
    (fileHookCount postHookCount : ℕ) (q0 : Queue) : RunStats :=
  let q := runPreStage preHooks q0
  if q.isEmpty then ⟨0, 0, 0, false⟩
  else ⟨q.length, q.length * fileHookCount, postHookCount, true⟩

/-- A sequence of `add_survey` calls applied in order; each call supplies a
geometry, the keyword properties, and the date `utils.this_date()` returned
at that call. -/
def applyAdds (st : FRED) (ops : List (Option Geometry × Dict PValue × String)) :
    FRED :=
  ops.foldl (fun s op => s.add_survey op.1 op.2.1 op.2.2) st

/-- A focus candidate: producing module, artifacts map, artifact path. -/
abbrev Cand := ℕ × Dict PathSpec × String

/-- The seen-path set after scanning a candidate list. -/
def seenAfter : List Cand → List String → List String
  | [], seen => seen
  | c :: rest, seen =>
    if seen.contains c.2.2 then seenAfter rest seen
    else seenAfter rest (c.2.2 :: seen)



/-- Lookup distributes over a cons cell. -/
theorem dget_cons {α : Type} (a : String × α) (l : Dict α) (k : String) :
    dget (a :: l) k = if a.1 == k then some a.2 else dget l k := by
  by_cases h : a.1 == k
  · simp [dget, List.find?, h]
  · simp [dget, List.find?, h]

/-- Setting a key makes it look up to the new value. -/
theorem dget_dset_self {α : Type} (d : Dict α) (k : String) (v : α) :
    dget (dset d k v) k = some v := by
  induction d with
  | nil => simp [dset, dget_cons]
  | cons a l ih =>
    by_cases h : a.1 == k
    · simp [dset, h, dget_cons]
    · simp [dset, h, dget_cons, ih]

/-- Setting one key leaves every other key's lookup unchanged. -/
theorem dget_dset_ne {α : Type} (d : Dict α) (k k' : String) (v : α)
    (h : ¬ k' = k) :
    dget (dset d k v) k' = dget d k' := by
  induction d with
  | nil =>
    have hb : (k == k') = false := by
      simpa using fun he => h he.symm
    simp [dset, dget_cons, hb, dget]
  | cons a l ih =>
    by_cases ha : a.1 == k
    · have hb : (k == k') = false := by
        simpa using fun he => h he.symm
      have ha' : a.1 = k := by simpa using ha
      simp [dset, ha, dget_cons, hb, ha', Ne.symm h]
    · simp [dset, ha, dget_cons, ih]

/-- Presence of a key survives setting a different key. -/
theorem dhas_dset_ne {α : Type} (d : Dict α) (k k' : String) (v : α)
    (h : ¬ k' = k) :
    dhas (dset d k v) k' = dhas d k' := by
  simp [dhas, dget_dset_ne d k k' v h]

/-- A malformed clause (two or more equals signs) raises `ValueError` whenever
it is evaluated. -/
theorem clauseEval_malformed (props : Dict PValue) (c : String)
    (h : clauseWF c = false) :
    clauseEval props c = Except.error PyErr.valueError := by
  unfold clauseWF at h
  unfold clauseEval
  rcases hsp : pySplitEq c with _ | ⟨x, _ | ⟨y, _ | ⟨z, zs⟩⟩⟩
  · rw [hsp] at h; simp at h
  · rw [hsp] at h; simp at h
  · rw [hsp] at h; simp at h
  · simp [hsp]

/-- The only error the clause evaluator can produce is `ValueError`. -/
theorem clauseEval_error_val (props : Dict PValue) (c : String) (e : PyErr)
    (h : clauseEval props c = Except.error e) :
    e = PyErr.valueError := by
  unfold clauseEval at h
  rcases hsp : pySplitEq c with _ | ⟨x, _ | ⟨y, _ | ⟨z, zs⟩⟩⟩ <;>
    rw [hsp] at h <;> simp at h
  exact h.symm

/-- On well-formed clauses, the attribute-filter loop computes exactly the
conjunction of the declarative clause readings. -/
theorem whereMatch_eq_all (props : Dict PValue) (whereC : List String)
    (h : ∀ c ∈ whereC, clauseWF c = true) :
    whereMatch props whereC = Except.ok (whereC.all (clauseOk props)) := by
  induction whereC with
  | nil => rfl
  | cons c rest ih =>
    have hc : clauseWF c = true := h c (List.mem_cons_self c rest)
    have hr : ∀ x ∈ rest, clauseWF x = true :=
      fun x hx => h x (List.mem_cons_of_mem c hx)
    have ih' := ih hr
    unfold clauseWF at hc
    unfold whereMatch clauseEval
    rcases hsp : pySplitEq c with _ | ⟨x, _ | ⟨y, _ | ⟨z, zs⟩⟩⟩
    · simp [hsp, ih', List.all_cons, clauseOk]
    · simp [hsp, ih', List.all_cons, clauseOk]
    · by_cases hm : pyStrOpt (dget props (pyClauseTrim x)) == pyClauseTrim y
      · simp [hsp, hm, ih', List.all_cons, clauseOk]
      · simp [hsp, hm, List.all_cons, clauseOk]
    · rw [hsp] at hc; simp at hc

/-- Unfolding equation for `searchList` on a cons cell. -/
theorem searchList_cons (whereC : List String) (layer : Option String)
    (spatialOn : Option (Geometry → Bool)) (f : Feature) (rest : List Feature) :
    searchList whereC layer spatialOn (f :: rest)
      = if layerMismatch layer f.properties then
          searchList whereC layer spatialOn rest
        else
          match whereMatch f.properties whereC with
          | Except.error e => Except.error e
          | Except.ok false => searchList whereC layer spatialOn rest
          | Except.ok true =>
            match spatialOn, f.geometry with
            | some keep, some g =>
              if keep g then
                (searchList whereC layer spatialOn rest).map (f.properties :: ·)
              else
                searchList whereC layer spatialOn rest
            | _, _ =>
              (searchList whereC layer spatialOn rest).map (f.properties :: ·) :=
  rfl

/-- On well-formed clauses, the feature loop of `FRED.search` computes the
filter-then-project of `featKeep`, preserving feature order. -/
theorem searchList_eq_filter (whereC : List String) (layer : Option String)
    (spatialOn : Option (Geometry → Bool))
    (hwf : ∀ c ∈ whereC, clauseWF c = true) :
    ∀ feats : List Feature,
      searchList whereC layer spatialOn feats
        = Except.ok ((feats.filter (featKeep whereC layer spatialOn)).map
            (fun f => f.properties)) := by
  intro feats
  induction feats with
  | nil => rfl
  | cons f rest ih =>
    rw [searchList_cons]
    by_cases hl : layerMismatch layer f.properties
    · simp [hl, ih, List.filter_cons, featKeep]
    · rw [whereMatch_eq_all f.properties whereC hwf]
      by_cases hall : whereC.all (clauseOk f.properties)
      · cases hsp : spatialOn with
        | none =>
          rw [hsp] at ih
          simp [hl, hall, ih, List.filter_cons, featKeep, geomKeep,
            Except.map]
        | some keep =>
          rw [hsp] at ih
          cases hg : f.geometry with
          | none =>
            simp [hl, hall, hg, ih, List.filter_cons, featKeep, geomKeep,
              Except.map]
          | some g =>
            by_cases hk : keep g
            · simp [hl, hall, hg, hk, ih, List.filter_cons, featKeep,
                geomKeep, Except.map]
            · simp [hl, hall, hg, hk, ih, List.filter_cons, featKeep,
                geomKeep, Except.map]
      · simp [hl, hall, ih, List.filter_cons, featKeep]

/-- C1 (amended): with well-formed attribute clauses, `search` returns
exactly the property maps of the features passing the layer filter, all
attribute clauses, and — when a region is supplied and the engine is
available — the spatial filter, under which a feature with a parseable
intersecting geometry is kept, a feature whose geometry fails to parse is
dropped, and a feature with no geometry bypasses the filter and is kept;
without the engine the result degrades to the attribute-filtered set, and
results keep feature insertion order with no secondary sort. -/
theorem C1_search_characterization (st : FRED) (region : Option Region)
    (whereC : List String) (layer : Option String) (hasShapely : Bool)
    (shapeValid : Geometry → Bool) (intersects : Geometry → Region → Bool)
    (hwf : ∀ c ∈ whereC, clauseWF c = true) :
    FRED.search st region whereC layer hasShapely shapeValid intersects
      = Except.ok ((st.features.filter
          (featKeep whereC layer
            (spatialFilterOf region hasShapely shapeValid intersects))).map
          (fun f => f.properties)) :=
  searchList_eq_filter whereC layer
    (spatialFilterOf region hasShapely shapeValid intersects) hwf st.features

/-- Witness for C1: a two-feature index queried with one matching attribute
clause. -/
theorem C1_search_characterization_witness :
    (∀ c ∈ ["Agency=NOAA"], clauseWF c = true)
    ∧ FRED.search
        ⟨"F", [⟨[("Agency", PValue.str "NOAA")], Option.none⟩,
               ⟨[("Agency", PValue.str "USGS")], Option.none⟩]⟩
        Option.none ["Agency=NOAA"] Option.none false
        (fun _ => true) (fun _ _ => true)
      = Except.ok
          (((⟨"F", [⟨[("Agency", PValue.str "NOAA")], Option.none⟩,
                    ⟨[("Agency", PValue.str "USGS")], Option.none⟩]⟩ :
              FRED).features.filter
            (featKeep ["Agency=NOAA"] Option.none
              (spatialFilterOf Option.none false
                (fun _ => true) (fun _ _ => true)))).map
            (fun f => f.properties)) :=
  ⟨by decide,
   C1_search_characterization
     ⟨"F", [⟨[("Agency", PValue.str "NOAA")], Option.none⟩,
            ⟨[("Agency", PValue.str "USGS")], Option.none⟩]⟩
     Option.none ["Agency=NOAA"] Option.none false
     (fun _ => true) (fun _ _ => true) (by decide)⟩

/-- C1 is false as stated: with a region supplied and the engine available,
a feature carrying no geometry is returned by the code even though its
geometry does not intersect the query region (it bypasses the spatial
filter), while the claim's reading excludes it. -/
theorem C1_counterexample :
    FRED.search ⟨"F", [⟨[("a", PValue.str "1")], Option.none⟩]⟩
        (some (0, 1, 0, 1)) [] Option.none true
        (fun _ => true) (fun _ _ => true)
      = Except.ok [[("a", PValue.str "1")]]
    ∧ searchClaimC1 ⟨"F", [⟨[("a", PValue.str "1")], Option.none⟩]⟩
        (some (0, 1, 0, 1)) [] Option.none true
        (fun _ => true) (fun _ _ => true)
      = [] :=
  ⟨rfl, rfl⟩

/-- C2: for any sequence of `add_survey` calls, `save()` on a writable path
followed by a fresh load of the produced file reproduces the same feature
list in the same order. -/
theorem C2_save_load_roundtrip (st0 : FRED)
    (ops : List (Option Geometry × Dict PValue × String))
    (oldFile : FileState) :
    FRED.load (applyAdds st0 ops).name
        (FRED.save (applyAdds st0 ops) true oldFile)
      = Except.ok (applyAdds st0 ops) := by
  rcases h : applyAdds st0 ops with ⟨nm, feats⟩
  rfl

/-- C8 is false as stated: loading is not raise-free on every unreadable or
unparsable backing file.  A file whose JSON parses to a non-object value
makes `data.get('features', [])` raise `AttributeError`, and a file whose
bytes are not valid UTF-8 makes `json.load` raise `UnicodeDecodeError` — a
`ValueError` caught by neither `json.JSONDecodeError` nor `IOError`. -/
theorem C8_counterexample :
    FRED.load "FRED" FileState.nonObject = Except.error PyErr.attributeError
    ∧ FRED.load "FRED" FileState.undecodable
        = Except.error PyErr.unicodeDecodeError :=
  ⟨rfl, rfl⟩

/-- C8 (amended): a missing backing file, an unreadable one (`IOError`) and
non-JSON text (`json.JSONDecodeError`) each yield an empty index with the
failure logged, and construction never raises provided the backing file's
bytes decode as UTF-8 and, when parsed, the top-level JSON value is an
object; the two remaining load failures — invalid UTF-8 bytes and a
non-object top-level value — raise uncaught errors. -/
theorem C8_load_failure_empty (nm : String) (file : FileState) :
    (FRED.load nm FileState.absent = Except.ok ⟨nm, []⟩)
    ∧ (FRED.load nm FileState.unreadable = Except.ok ⟨nm, []⟩)
    ∧ (FRED.load nm FileState.malformed = Except.ok ⟨nm, []⟩)
    ∧ (¬ file = FileState.nonObject → ¬ file = FileState.undecodable →
        (FRED.load nm file).isOk = true) := by
  refine ⟨rfl, rfl, rfl, fun h h2 => ?_⟩
  cases file with
  | nonObject => exact absurd rfl h
  | undecodable => exact absurd rfl h2
  | absent => rfl
  | unreadable => rfl
  | malformed => rfl
  | doc d => rfl

/-- Witness for C8: the malformed-file case. -/
theorem C8_load_failure_empty_witness :
    (¬ FileState.malformed = FileState.nonObject)
    ∧ (¬ FileState.malformed = FileState.undecodable)
    ∧ (FRED.load "FRED" FileState.malformed).isOk = true :=
  ⟨by decide, by decide,
   (C8_load_failure_empty "FRED" FileState.malformed).2.2.2
     (by decide) (by decide)⟩

/-- C4 is false as stated: `add_survey` performs no `DataLink` check, so
`save()` persists a feature carrying no `DataLink` at all. -/
theorem C4_counterexample :
    FRED.save (FRED.add_survey ⟨"t", []⟩ Option.none [] "2026-01-01") true
        FileState.absent
      = FileState.doc
          ⟨"t", some [⟨[("LastUpdate", PValue.str "2026-01-01")], Option.none⟩]⟩
    ∧ dhas [("LastUpdate", PValue.str "2026-01-01")] "DataLink" = false :=
  ⟨rfl, by decide⟩

/-- C10 is false as stated: a clause with two `=` characters does not raise
when it is never evaluated — over an empty index the search returns an empty
result instead of raising. -/
theorem C10_counterexample :
    FRED.search ⟨"FRED", []⟩ Option.none ["k=v=w"] Option.none false
        (fun _ => true) (fun _ _ => true) = Except.ok []
    ∧ clauseWF "k=v=w" = false :=
  ⟨rfl, by decide⟩

/-- The only error the attribute-filter loop can produce is `ValueError`. -/
theorem whereMatch_error_val (props : Dict PValue) (whereC : List String)
    (e : PyErr) (h : whereMatch props whereC = Except.error e) :
    e = PyErr.valueError := by
  induction whereC with
  | nil => simp [whereMatch] at h
  | cons c rest ih =>
    unfold whereMatch at h
    cases hc : clauseEval props c with
    | error e2 =>
      rw [hc] at h
      injection h with h2
      subst h2
      exact clauseEval_error_val props c e2 hc
    | ok ob =>
      rw [hc] at h
      cases ob with
      | none => exact ih h
      | some b => cases b with
        | true => exact ih h
        | false => cases h

/-- C10 (amended): a clause holding two or more `=` characters raises
`ValueError` whenever it is evaluated, and `search` raises exactly when some
feature actually reaches the malformed clause — it passes the layer filter
and no earlier clause mismatches first; with clauses holding at most one
`=`, the attribute filter never raises. -/
theorem C10_malformed_clause_raises (st : FRED) (region : Option Region)
    (whereC : List String) (layer : Option String) (hasShapely : Bool)
    (shapeValid : Geometry → Bool) (intersects : Geometry → Region → Bool)
    (f : Feature) (hf : f ∈ st.features)
    (hlayer : layerMismatch layer f.properties = false)
    (hreach : whereMatch f.properties whereC = Except.error PyErr.valueError) :
    FRED.search st region whereC layer hasShapely shapeValid intersects
      = Except.error PyErr.valueError
    ∧ (∀ (props : Dict PValue) (c : String), clauseWF c = false →
        clauseEval props c = Except.error PyErr.valueError)
    ∧ (∀ (props : Dict PValue) (w : List String),
        (∀ c ∈ w, clauseWF c = true) →
          whereMatch props w = Except.ok (w.all (clauseOk props))) := by
  refine ⟨?_, clauseEval_malformed, whereMatch_eq_all⟩
  show searchList whereC layer
      (spatialFilterOf region hasShapely shapeValid intersects) st.features
    = Except.error PyErr.valueError
  generalize spatialFilterOf region hasShapely shapeValid intersects = spatialOn
  revert hf
  induction st.features with
  | nil => intro hf; cases hf
  | cons g rest ih =>
    intro hf
    rw [searchList_cons]
    rcases List.mem_cons.mp hf with hg | hr
    · subst hg
      simp [hlayer, hreach]
    · by_cases hl : layerMismatch layer g.properties
      · simp [hl, ih hr]
      · cases hw : whereMatch g.properties whereC with
        | error e =>
          have : e = PyErr.valueError := whereMatch_error_val _ _ _ hw
          subst this
          simp [hl, hw]
        | ok b =>
          cases b with
          | false => simp [hl, hw, ih hr]
          | true =>
            cases spatialOn with
            | none => simp [hl, hw, ih hr, Except.map]
            | some keep =>
              cases g.geometry with
              | none => simp [hl, hw, ih hr, Except.map]
              | some gg =>
                by_cases hk : keep gg
                · simp [hl, hw, hk, ih hr, Except.map]
                · simp [hl, hw, hk, ih hr]

/-- Witness for C10: a one-feature index with a clause holding two `=`
characters. -/
theorem C10_malformed_clause_raises_witness :
    (⟨[("k", PValue.str "x")], Option.none⟩ : Feature)
      ∈ (⟨"F", [⟨[("k", PValue.str "x")], Option.none⟩]⟩ : FRED).features
    ∧ layerMismatch Option.none [("k", PValue.str "x")] = false
    ∧ whereMatch [("k", PValue.str "x")] ["k=v=w"]
        = Except.error PyErr.valueError
    ∧ FRED.search ⟨"F", [⟨[("k", PValue.str "x")], Option.none⟩]⟩ Option.none
        ["k=v=w"] Option.none false (fun _ => true) (fun _ _ => true)
      = Except.error PyErr.valueError :=
  ⟨by decide, by decide, by decide,
   (C10_malformed_clause_raises
     ⟨"F", [⟨[("k", PValue.str "x")], Option.none⟩]⟩ Option.none ["k=v=w"]
     Option.none false (fun _ => true) (fun _ _ => true)
     ⟨[("k", PValue.str "x")], Option.none⟩ (by decide) (by decide)
     (by decide)).1⟩

/-- Rewriting a link to its canonical local-file form preserves the presence
of the `DataLink` key. -/
theorem canonicalizeLink_dhas (props : Dict PValue)
    (h : dhas props "DataLink" = true) :
    dhas (canonicalizeLink props) "DataLink" = true := by
  unfold canonicalizeLink
  cases hd : dget props "DataLink" with
  | none => simp [dhas, hd] at h
  | some v =>
    cases v with
    | str s =>
      by_cases hc :
          (!(s == "") && !(strStarts s "http") && !(strStarts s "ftp")) = true
      · simp [hc, dhas, dget_dset_self]
      · simp [hc]; exact h
    | num q => exact h
    | bool b => exact h

/-- A record accepted by `ingest` yields a feature with the rectangular
polygon, a present `DataLink`, and the `LastUpdate` stamp. -/
theorem ingestRecord_some (fm : List (String × String)) (today : String)
    (row : Dict PValue) (f : Feature)
    (h : ingestRecord fm today row = some f) :
    (∃ w e s n : ℚ, f.geometry = some (Geometry.polygon [rectRing w e s n]))
    ∧ dhas f.properties "DataLink" = true
    ∧ dget f.properties "LastUpdate" = some (PValue.str today) := by
  unfold ingestRecord at h
  by_cases hd :
      dhas (resolveDataLink row (applyFieldMap row fm (copySchemaFields row)))
        "DataLink" = true
  · rw [if_neg (by simp [hd])] at h
    rcases hw : getVal row keysW with _ | w
    · rw [hw] at h; simp at h
    · rcases he : getVal row keysE with _ | e
      · rw [hw, he] at h; simp at h
      · rcases hs : getVal row keysS with _ | s
        · rw [hw, he, hs] at h; simp at h
        · rcases hn : getVal row keysN with _ | n
          · rw [hw, he, hs, hn] at h; simp at h
          · rw [hw, he, hs, hn] at h
            injection h with h2
            subst h2
            refine ⟨⟨w, e, s, n, rfl⟩, ?_, dget_dset_self _ _ _⟩
            show dhas (dset (canonicalizeLink _) "LastUpdate"
                (PValue.str today)) "DataLink" = true
            rw [dhas_dset_ne _ _ _ _ (by decide)]
            exact canonicalizeLink_dhas _ hd
  · rw [if_pos (by simp [Bool.not_eq_true] at hd; simp [hd])] at h
    simp at h

/-- C4 (amended): `LastUpdate` is stamped by `add_survey` at creation time,
overriding any caller-supplied value; `save` persists the feature list
verbatim and performs no `DataLink` check itself — the `DataLink` guarantee
holds for the features `ingest` creates (which always carry one), not for
arbitrary `add_survey` input. -/
theorem C4_lastupdate_stamp :
    (∀ (st : FRED) (geom : Option Geometry) (kwargs : Dict PValue)
        (today : String),
      (st.add_survey geom kwargs today).features
          = st.features
            ++ [⟨dset kwargs "LastUpdate" (PValue.str today), geom⟩]
        ∧ dget (dset kwargs "LastUpdate" (PValue.str today)) "LastUpdate"
            = some (PValue.str today))
    ∧ (∀ st : FRED,
        FRED.saveDoc st = FileState.doc ⟨st.name, some st.features⟩)
    ∧ (∀ (fm : List (String × String)) (today : String) (row : Dict PValue)
        (f : Feature), ingestRecord fm today row = some f →
          dhas f.properties "DataLink" = true) :=
  ⟨fun st geom kwargs today => ⟨rfl, dget_dset_self _ _ _⟩,
   fun st => rfl,
   fun fm today row f h => (ingestRecord_some fm today row f h).2.1⟩

/-- Witness for C4: a caller-supplied `LastUpdate` is overridden, and a
concrete accepted ingest record carries a `DataLink`. -/
theorem C4_lastupdate_stamp_witness :
    (FRED.add_survey ⟨"t", []⟩ Option.none
        [("LastUpdate", PValue.str "1999-01-01")] "2026-01-01").features
      = [⟨[("LastUpdate", PValue.str "2026-01-01")], Option.none⟩]
    ∧ dhas ([("Name", PValue.str "x"),
             ("DataLink", PValue.str "http://a/b.tif"),
             ("LastUpdate", PValue.str "2026")] : Dict PValue) "DataLink"
        = true :=
  ⟨by
    have h := (C4_lastupdate_stamp.1 ⟨"t", []⟩ Option.none
      [("LastUpdate", PValue.str "1999-01-01")] "2026-01-01").1
    simpa using h,
   C4_lastupdate_stamp.2.2 []
     "2026"
     [("name", PValue.str "x"), ("url", PValue.str "http://a/b.tif"),
      ("w", PValue.num 1), ("e", PValue.num 2), ("s", PValue.num 3),
      ("n", PValue.num 4)]
     ⟨[("Name", PValue.str "x"), ("DataLink", PValue.str "http://a/b.tif"),
       ("LastUpdate", PValue.str "2026")],
      some (Geometry.polygon [rectRing 1 2 3 4])⟩
     (by decide)⟩

/-- C3: with a readable source, `ingest` persists exactly once at the end,
processes every record without aborting (skipped records are counted),
appends exactly the accepted records as features with the rectangular
`SW → SE → NE → NW → SW` ring and a resolvable link, and in particular the
record with a link but no bounds adds zero features. -/
theorem C3_ingest_validation (st : FRED) (rows : List (Dict PValue))
    (fieldMap : List (String × String)) (wipe : Bool) (today : String) :
    (FRED.ingest st (some rows) fieldMap wipe today).saves = 1
    ∧ (FRED.ingest st (some rows) fieldMap wipe today).written
        = some (FRED.ingest st (some rows) fieldMap wipe today).state.saveDoc
    ∧ (FRED.ingest st (some rows) fieldMap wipe today).state.features
        = (if wipe then [] else st.features)
          ++ rows.filterMap (ingestRecord fieldMap today)
    ∧ (∀ f ∈ rows.filterMap (ingestRecord fieldMap today),
        (∃ w e s n : ℚ,
          f.geometry = some (Geometry.polygon [rectRing w e s n]))
        ∧ dhas f.properties "DataLink" = true)
    ∧ (FRED.ingest st (some rows) fieldMap wipe today).added
        + (FRED.ingest st (some rows) fieldMap wipe today).skipped
        = rows.length
    ∧ (FRED.ingest st
        (some [[("name", PValue.str "x"),
                ("url", PValue.str "http://a/b.tif")]])
        [] false today).state.features = st.features := by
  have hrec : List.filterMap (ingestRecord [] today)
      [[("name", PValue.str "x"), ("url", PValue.str "http://a/b.tif")]]
      = ([] : List Feature) := rfl
  refine ⟨rfl, rfl, ?_, ?_, ?_, ?_⟩
  · cases wipe <;> rfl
  · intro f hf
    obtain ⟨row, hrow, hr⟩ := List.mem_filterMap.mp hf
    exact ⟨(ingestRecord_some fieldMap today row f hr).1,
           (ingestRecord_some fieldMap today row f hr).2.1⟩
  · exact Nat.add_sub_cancel' (List.length_filterMap_le _ _)
  · simp [FRED.ingest, hrec]

/-- Witness for C3: ingesting the claim's single bound-less record. -/
theorem C3_ingest_validation_witness :
    (FRED.ingest ⟨"F", []⟩
      (some [[("name", PValue.str "x"),
              ("url", PValue.str "http://a/b.tif")]])
      [] false "2026").saves = 1 :=
  (C3_ingest_validation ⟨"F", []⟩
    [[("name", PValue.str "x"), ("url", PValue.str "http://a/b.tif")]]
    [] false "2026").1

/-- Candidate de-duplication distributes over append, threading the
seen-path set. -/
theorem dedupCands_append (xs ys : List Cand) (seen : List String) :
    dedupCands (xs ++ ys) seen
      = dedupCands xs seen ++ dedupCands ys (seenAfter xs seen) := by
  induction xs generalizing seen with
  | nil => rfl
  | cons c rest ih =>
    by_cases h : c.2.2 ∈ seen
    · simp [dedupCands, seenAfter, h, ih]
    · simp [dedupCands, seenAfter, h, ih]

/-- The inner path loop of the focus hook equals candidate de-duplication
over that entry's paths. -/
theorem focusPaths_eq (t : String) (m : ℕ) (arts : Dict PathSpec) :
    ∀ (ps : List String) (seen : List String),
      focusPaths t m arts ps seen
        = ((dedupCands (ps.map (fun p => (m, arts, p))) seen).map
            (fun c => (c.1, focusEntry t c.2.1 c.2.2)),
           seenAfter (ps.map (fun p => (m, arts, p))) seen) := by
  intro ps
  induction ps with
  | nil => intro seen; rfl
  | cons p rest ih =>
    intro seen
    by_cases h : p ∈ seen
    · simp [focusPaths, dedupCands, seenAfter, h, ih]
    · simp [focusPaths, dedupCands, seenAfter, h, ih]

/-- The entry loop of the focus hook equals de-duplicated candidate
fabrication over the flattened candidate list. -/
theorem focusGo_eq (t : String) :
    ∀ (entries : List PipeItem) (seen : List String),
      focusGo t entries seen
        = (dedupCands (focusCandidates t entries) seen).map
            (fun c => (c.1, focusEntry t c.2.1 c.2.2)) := by
  intro entries
  induction entries with
  | nil => intro seen; rfl
  | cons me rest ih =>
    intro seen
    have hcand : focusCandidates t (me :: rest)
        = (match dget (entryArts me.2) t with
           | some spec => (pathsOf spec).map (fun p => (me.1, entryArts me.2, p))
           | Option.none => [])
          ++ focusCandidates t rest := by
      simp [focusCandidates]
    cases hma : dget (entryArts me.2) t with
    | none =>
      rw [hcand, hma]
      simp [focusGo, hma, ih]
    | some spec =>
      rw [hcand, hma]
      simp only [focusGo, hma, focusPaths_eq, dedupCands_append,
        List.map_append]
      rw [ih]

/-- C5 (amended): a focus hook with a truthy target discards the entries and
fabricates synthetic entries — `status = 0`, a local-file URL, `dst_fn` the
artifact path, `data_type = target + "_artifact"`, the original artifacts map
preserved — one per artifact path of target-bearing entries, de-duplicated
across the run by the *literal path string* (no absolute-path
normalization); on the claim's concrete input it yields exactly one
synthetic entry. -/
theorem C5_focus_characterization (target : String) (entries : List PipeItem)
    (ht : ¬ target = "") :
    FocusSink.run (some target) entries
      = (dedupCands (focusCandidates target entries) []).map
          (fun c => (c.1, focusEntry target c.2.1 c.2.2))
    ∧ FocusSink.run (some "T")
        [(0, [("artifacts", EVal.amap [("T", PathSpec.one "/a.tif")])]),
         (1, [("artifacts", EVal.amap [])])]
      = [(0, [("url", EVal.s "file:///a.tif"), ("dst_fn", EVal.s "/a.tif"),
              ("status", EVal.i 0), ("data_type", EVal.s "T_artifact"),
              ("artifacts", EVal.amap [("T", PathSpec.one "/a.tif")])])] := by
  constructor
  · have hb : (target == "") = false := by
      simpa using ht
    simp [FocusSink.run, hb, focusGo_eq]
  · decide

/-- Witness for C5: the claim's concrete two-entry input. -/
theorem C5_focus_characterization_witness :
    (¬ "T" = "")
    ∧ FocusSink.run (some "T")
        [(0, [("artifacts", EVal.amap [("T", PathSpec.one "/a.tif")])]),
         (1, [("artifacts", EVal.amap [])])]
      = (dedupCands (focusCandidates "T"
          [(0, [("artifacts", EVal.amap [("T", PathSpec.one "/a.tif")])]),
           (1, [("artifacts", EVal.amap [])])]) []).map
          (fun c => (c.1, focusEntry "T" c.2.1 c.2.2)) :=
  ⟨by decide,
   (C5_focus_characterization "T"
     [(0, [("artifacts", EVal.amap [("T", PathSpec.one "/a.tif")])]),
      (1, [("artifacts", EVal.amap [])])] (by decide)).1⟩

/-- C5 is false as stated: de-duplication is by the literal path string, not
by absolute path — two spellings of the same absolute path yield two
synthetic entries where the claim's reading yields one. -/
theorem C5_counterexample :
    (FocusSink.run (some "T")
      [(0, [("artifacts",
             EVal.amap [("T", PathSpec.many ["/a.tif", "/x/../a.tif"])])])]).length
      = 2
    ∧ (focusClaimRun "T"
      [(0, [("artifacts",
             EVal.amap [("T", PathSpec.many ["/a.tif", "/x/../a.tif"])])])]).length
      = 1
    ∧ absNorm "/x/../a.tif" = absNorm "/a.tif"
    ∧ ¬ ("/x/../a.tif" = "/a.tif") :=
  ⟨by decide, by decide, by decide, by decide⟩

/-- Field values of the skip-path entries: `dst_fn` points at the existing
extracted file, `status` is reset to 0, and `src_fn` is whatever the origin
entry carried (no back-reference is added). -/
theorem skipEntries_fields (m : ℕ) (e : Entry) (dir : String)
    (files : List String) :
    (skipEntries m e dir files).map (fun it => dget it.2 "dst_fn")
      = files.map (fun f => some (EVal.s (pjoin dir f)))
    ∧ ∀ it ∈ skipEntries m e dir files,
        dget it.2 "src_fn" = dget e "src_fn"
        ∧ dget it.2 "status" = some (EVal.i 0) := by
  constructor
  · induction files with
    | nil => rfl
    | cons f rest ih =>
      have hh : dget (dset (dset e "dst_fn" (EVal.s (pjoin dir f))) "status"
          (EVal.i 0)) "dst_fn" = some (EVal.s (pjoin dir f)) := by
        rw [dget_dset_ne _ _ _ _ (by decide)]
        exact dget_dset_self _ _ _
      simpa [skipEntries, hh] using ih
  · intro it hit
    obtain ⟨f, hf, hfe⟩ := List.mem_map.mp hit
    rw [← hfe]
    refine ⟨?_, dget_dset_self _ _ _⟩
    rw [dget_dset_ne _ _ _ _ (by decide), dget_dset_ne _ _ _ _ (by decide)]

/-- C6 (amended): with overwrite disabled, running the unzip hook on a
successfully transferred zip archive all of whose members already exist at
the destination skips re-extraction (the filesystem is untouched) and still
yields one entry per member whose `dst_fn` points at the existing extracted
file with `status = 0`; these skip-path entries do *not* gain a `src_fn`
back-reference — `src_fn` is only added when extraction actually runs. -/
theorem C6_unzip_skip_existing (removeOrig : Bool) (env : ArchiveEnv)
    (fs : FS) (m : ℕ) (e : Entry) (p : String) (names : List String)
    (hdst : dget e "dst_fn" = some (EVal.s p))
    (hstat : dget e "status" = some (EVal.i 0))
    (hp : ¬ p = "")
    (hzip : strEnds (strLower p) ".zip" = true)
    (hnames : env.zipNames p = Except.ok names)
    (hexist : (names.filter (fun n => !(strEnds n "/"))).all
        (fun f => fs.contains (pjoin (dirname p) f)) = true) :
    Unzip.run removeOrig false env [(m, e)] fs
      = (skipEntries m e (dirname p)
          (names.filter (fun n => !(strEnds n "/"))), fs)
    ∧ (∀ it ∈ skipEntries m e (dirname p)
          (names.filter (fun n => !(strEnds n "/"))),
        dget it.2 "src_fn" = dget e "src_fn"
        ∧ dget it.2 "status" = some (EVal.i 0))
    ∧ (skipEntries m e (dirname p)
          (names.filter (fun n => !(strEnds n "/")))).map
        (fun it => dget it.2 "dst_fn")
        = (names.filter (fun n => !(strEnds n "/"))).map
            (fun f => some (EVal.s (pjoin (dirname p) f))) := by
  have hbeq : (p == "") = false := by simpa using hp
  have key : unzipEntry removeOrig false env fs (m, e)
      = (skipEntries m e (dirname p)
          (names.filter (fun n => !(strEnds n "/"))), fs) := by
    simp only [unzipEntry, hdst, hstat, hbeq, hzip, hnames, Except.map,
      unzipArchive]
    have hcond : (!false && (names.filter (fun n => !(strEnds n "/"))).all
        (fun f => fs.contains (pjoin (dirname p) f))) = true := by
      rw [Bool.not_false, Bool.true_and]
      exact hexist
    rw [if_pos hcond]
    simp
  refine ⟨?_, (skipEntries_fields m e (dirname p) _).2,
    (skipEntries_fields m e (dirname p) _).1⟩
  simp [Unzip.run, key]

/-- Witness for C6: a zip archive with members `a.txt`, `b.txt` both already
present at the destination directory. -/
theorem C6_unzip_skip_existing_witness :
    Unzip.run false false
      ⟨fun q => if q == "/d/a.zip" then Except.ok ["a.txt", "b.txt"]
                else Except.error (),
       fun _ => Except.error (), fun _ => false⟩
      [(0, [("dst_fn", EVal.s "/d/a.zip"), ("status", EVal.i 0)])]
      ["/d/a.txt", "/d/b.txt"]
      = (skipEntries 0 [("dst_fn", EVal.s "/d/a.zip"), ("status", EVal.i 0)]
          (dirname "/d/a.zip")
          ((["a.txt", "b.txt"] : List String).filter
            (fun n => !(strEnds n "/"))),
         ["/d/a.txt", "/d/b.txt"]) :=
  (C6_unzip_skip_existing false
    ⟨fun q => if q == "/d/a.zip" then Except.ok ["a.txt", "b.txt"]
              else Except.error (),
     fun _ => Except.error (), fun _ => false⟩
    ["/d/a.txt", "/d/b.txt"] 0
    [("dst_fn", EVal.s "/d/a.zip"), ("status", EVal.i 0)]
    "/d/a.zip" ["a.txt", "b.txt"]
    (by decide) (by decide) (by decide) (by decide) (by decide) (by decide)).1

/-- C6 is false as stated: the skip-path entries produced for an archive
whose members already exist carry no `src_fn` back-reference at all — the
code only adds `src_fn` when extraction actually runs. -/
theorem C6_counterexample :
    (Unzip.run false false
      ⟨fun q => if q == "/d/a.zip" then Except.ok ["a.txt", "b.txt"]
                else Except.error (),
       fun _ => Except.error (), fun _ => false⟩
      [(0, [("dst_fn", EVal.s "/d/a.zip"), ("status", EVal.i 0)])]
      ["/d/a.txt", "/d/b.txt"]).1
      = [(0, [("dst_fn", EVal.s "/d/a.txt"), ("status", EVal.i 0)]),
         (0, [("dst_fn", EVal.s "/d/b.txt"), ("status", EVal.i 0)])]
    ∧ ((Unzip.run false false
      ⟨fun q => if q == "/d/a.zip" then Except.ok ["a.txt", "b.txt"]
                else Except.error (),
       fun _ => Except.error (), fun _ => false⟩
      [(0, [("dst_fn", EVal.s "/d/a.zip"), ("status", EVal.i 0)])]
      ["/d/a.txt", "/d/b.txt"]).1.all
        (fun it => (dget it.2 "src_fn").isNone)) = true
    ∧ (Unzip.run false false
      ⟨fun q => if q == "/d/a.zip" then Except.ok ["a.txt", "b.txt"]
                else Except.error (),
       fun _ => Except.error (), fun _ => false⟩
      [(0, [("dst_fn", EVal.s "/d/a.zip"), ("status", EVal.i 0)])]
      ["/d/a.txt", "/d/b.txt"]).2
      = ["/d/a.txt", "/d/b.txt"] :=
  ⟨by decide, by decide, by decide⟩

/-- A hook that empties every queue cancels the pre stage wherever it sits
in the caller-ordered hook list. -/
theorem runPreStage_cancelled (h : Queue → Queue) (hempty : ∀ q, h q = []) :
    ∀ (hooks : List (Queue → Queue)) (q : Queue), h ∈ hooks →
      runPreStage hooks q = [] := by
  intro hooks
  induction hooks with
  | nil => intro q hm; cases hm
  | cons g rest ih =>
    intro q hm
    rcases List.mem_cons.mp hm with hg | hr
    · subst hg
      simp [runPreStage, hempty q]
    · unfold runPreStage
      by_cases he : (g q).isEmpty
      · simp [he]
      · simp [he, ih _ hr]

/-- C7: when any pre-stage hook returns the empty sequence (as the dryrun
hook does for every input), the run performs zero transfers and zero
file-stage and zero post-stage hook invocations, and the worker pool never
starts. -/
theorem C7_empty_prestage_cancels (preHooks : List (Queue → Queue))
    (h : Queue → Queue) (hmem : h ∈ preHooks) (hempty : ∀ q, h q = [])
    (fileHookCount postHookCount : ℕ) (q0 : Queue) :
    runPipeline preHooks fileHookCount postHookCount q0 = ⟨0, 0, 0, false⟩
    ∧ (∀ q, DryRun.run q = []) := by
  refine ⟨?_, fun q => rfl⟩
  have hq := runPreStage_cancelled h hempty preHooks q0 hmem
  simp [runPipeline, hq]

/-- Witness for C7: a run whose only pre hook is the dryrun hook. -/
theorem C7_empty_prestage_cancels_witness :
    runPipeline [DryRun.run] 2 3 [(0, [])] = ⟨0, 0, 0, false⟩
    ∧ (∀ q, DryRun.run q = []) :=
  C7_empty_prestage_cancels [DryRun.run] DryRun.run
    (List.mem_singleton.mpr rfl) (fun _ => rfl) 2 3 [(0, [])]

/-- C9: registering two hook classes A then B under the same name makes a
subsequent lookup return B — the most recently registered type wins — and
lookup-by-name returns the registered class for every name just
registered. -/
theorem C9_registry_last_wins (reg : Registry) (A B : PyClass) (X : String)
    (hA1 : A.hasName = true) (hA2 : hookContractOk A = true)
    (hAn : A.clsName = X)
    (hB1 : B.hasName = true) (hB2 : hookContractOk B = true)
    (hBn : B.clsName = X) :
    get_hook (register_hook (register_hook reg A) B) X = some B
    ∧ (∀ (r : Registry) (c : PyClass), c.hasName = true →
        hookContractOk c = true →
        get_hook (register_hook r c) c.clsName = some c) := by
  constructor
  · simp only [register_hook, hA1, hA2, hB1, hB2, hAn, hBn, Bool.not_true,
      Bool.false_eq_true, if_false, if_true, get_hook]
    exact dget_dset_self _ _ _
  · intro r c h1 h2
    simp only [register_hook, h1, h2, Bool.not_true, Bool.false_eq_true,
      if_false, if_true, get_hook]
    exact dget_dset_self _ _ _

/-- Witness for C9: two concrete classes registered under the name `X`. -/
theorem C9_registry_last_wins_witness :
    get_hook (register_hook (register_hook []
        ⟨true, "X", true, true, false, 1⟩)
        ⟨true, "X", true, true, false, 2⟩) "X"
      = some ⟨true, "X", true, true, false, 2⟩
    ∧ (∀ (r : Registry) (c : PyClass), c.hasName = true →
        hookContractOk c = true →
        get_hook (register_hook r c) c.clsName = some c) :=
  C9_registry_last_wins [] ⟨true, "X", true, true, false, 1⟩
    ⟨true, "X", true, true, false, 2⟩ "X"
    rfl (by decide) rfl rfl (by decide) rfl
